import Mathlib

/-!
Shallow embedding of the coroutine message bus (`corobus.cpp`).

A channel holds a bounded FIFO of unsigned messages plus two waiter queues
(coroutines suspended on send / on recv); the bus holds a vector of channel
slots (NULL = empty) and one broadcast waiter queue.  Coroutine handles are
opaque: we model them as naturals.  The C++ `std::queue` push/pop become
list append-at-tail / take-head.  The process-wide errno is modelled per
call: each operation reports the error code it set (`none` when the call
set no error), and the list of coroutine handles it passed to
`coro_wakeup`, in order.
-/

/-- Opaque coroutine handle (`struct coro*`); the bus never inspects it. -/
abbrev Coro := Nat

/-- `struct coro_bus_channel`: capacity bound, the two waiter queues and the
message FIFO (head of the list = front of the queue, push at the tail). -/
structure coro_bus_channel where
  size_limit : Nat
  send_queue : List Coro
  recv_queue : List Coro
  messages : List Nat
deriving Repr, DecidableEq

/-- `struct coro_bus`: channel slot table (`none` = NULL slot) and the
bus-level broadcast waiter queue. -/
structure coro_bus where
  channels : List (Option coro_bus_channel)
  broadcast_queue : List Coro
deriving Repr, DecidableEq

/-- `enum coro_bus_error_code`. -/
inductive coro_bus_error_code where
  | CORO_BUS_ERR_NONE
  | CORO_BUS_ERR_NO_CHANNEL
  | CORO_BUS_ERR_WOULD_BLOCK
  | CORO_BUS_ERR_NOT_IMPLEMENTED
deriving Repr, DecidableEq

open coro_bus_error_code

/-- Result of one bus operation: the C return value, the bus state after the
call, the error code the call wrote into the global errno (`none` when it
wrote none), the handles passed to `coro_wakeup` in call order, and the
values written through the output pointer(s). -/
structure TryResult where
  ret : Int
  bus : coro_bus
  err_set : Option coro_bus_error_code
  woken : List Coro
  data_out : List Nat
deriving Repr, DecidableEq

/-- `wakeup_coro_queue`: wake every coroutine in the queue, draining it.
Returns the emptied queue and the handles woken, in FIFO order. -/
def wakeup_coro_queue (coro_queue : List Coro) : List Coro × List Coro :=
  ([], coro_queue)

/-- `wakeup_first_and_remove_from`: pop and wake the queue head if any.
Returns 0 if some coroutine was woken up else 1 (as the C comment states),
with the remaining queue and the woken handle(s). -/
def wakeup_first_and_remove_from : List Coro → Int × List Coro × List Coro
  | [] => (1, [], [])
  | c :: rest => (0, rest, [c])

/-- `have_free_space`: `messages.size() < size_limit`. -/
def have_free_space (chan : coro_bus_channel) : Bool :=
  chan.messages.length < chan.size_limit

/-- `get_chanel_from`: NULL on a negative or out-of-range descriptor,
otherwise the slot's contents (possibly NULL). -/
def get_chanel_from (bus : coro_bus) (channel : Int) : Option coro_bus_channel :=
  if channel < 0 then none
  else if bus.channels.length ≤ channel.toNat then none
  else bus.channels.getD channel.toNat none

/-- `send_and_wakeup_to`: append `data` to the message FIFO, then wake the
first receiver waiting on the channel if any.  Precondition at every call
site: `have_free_space`. -/
def send_and_wakeup_to (chan : coro_bus_channel) (data : Nat) :
    coro_bus_channel × List Coro :=
  let chan1 := { chan with messages := chan.messages ++ [data] }
  let (_, rq, w) := wakeup_first_and_remove_from chan1.recv_queue
  ({ chan1 with recv_queue := rq }, w)

/-- `read_and_wakeup_from`: pop the FIFO front into `*data`, wake the first
waiting sender; if there was none (the helper returned 1), wake the first
broadcast waiter of the bus instead.  Every call site guards
`!messages.empty()`, so the `headD` default is never read.  Returns the
value read, the updated channel, the updated broadcast queue and the woken
handles. -/
def read_and_wakeup_from (broadcast_queue : List Coro) (chan : coro_bus_channel) :
    Nat × coro_bus_channel × List Coro × List Coro :=
  let data := chan.messages.headD 0
  let chan1 := { chan with messages := chan.messages.tail }
  let (r, sq, w1) := wakeup_first_and_remove_from chan1.send_queue
  let chan2 := { chan1 with send_queue := sq }
  if r = 1 then
    let (_, bq, w2) := wakeup_first_and_remove_from broadcast_queue
    (data, chan2, bq, w1 ++ w2)
  else
    (data, chan2, broadcast_queue, w1)

/-- The slot-scan loop of `coro_bus_channel_open`:
`chan_desc = (bus->channels[i] == NULL) ? i : chan_desc;` over all slots,
starting from accumulator −1.  `i` is the index of the first listed slot. -/
def find_slot : List (Option coro_bus_channel) → Nat → Int → Int
  | [], _, chan_desc => chan_desc
  | none :: rest, i, _ => find_slot rest (i + 1) (Int.ofNat i)
  | some _ :: rest, i, chan_desc => find_slot rest (i + 1) chan_desc

/-- `coro_bus_channel_open`: scan all slots keeping the index of the last
NULL one; if none, append a fresh NULL slot and take its index; store a new
channel with the given `size_limit` there and return the descriptor. -/
def coro_bus_channel_open (bus : coro_bus) (size_limit : Nat) : Int × coro_bus :=
  let new_chan : coro_bus_channel :=
    { size_limit := size_limit, send_queue := [], recv_queue := [], messages := [] }
  let chan_desc := find_slot bus.channels 0 (-1)
  if chan_desc = -1 then
    (Int.ofNat bus.channels.length,
      { bus with channels := bus.channels ++ [some new_chan] })
  else
    (chan_desc,
      { bus with channels := bus.channels.set chan_desc.toNat (some new_chan) })

/-- `coro_bus_channel_close`: no-op on an invalid descriptor or empty slot;
otherwise wake and drain both waiter queues, NULL the slot, delete the
channel, yield.  Returns the bus and the handles woken (send queue first). -/
def coro_bus_channel_close (bus : coro_bus) (channel : Int) : coro_bus × List Coro :=
  match get_chanel_from bus channel with
  | none => (bus, [])
  | some chan =>
    ({ bus with channels := bus.channels.set channel.toNat none },
      (wakeup_coro_queue chan.send_queue).2 ++ (wakeup_coro_queue chan.recv_queue).2)

/-- `coro_bus_try_send`: NO_CHANNEL if the lookup fails, WOULD_BLOCK if the
channel has no free space, else `send_and_wakeup_to` and return 0. -/
def coro_bus_try_send (bus : coro_bus) (channel : Int) (data : Nat) : TryResult :=
  match get_chanel_from bus channel with
  | none => ⟨-1, bus, some CORO_BUS_ERR_NO_CHANNEL, [], []⟩
  | some chan =>
    if !have_free_space chan then
      ⟨-1, bus, some CORO_BUS_ERR_WOULD_BLOCK, [], []⟩
    else
      let (chan1, w) := send_and_wakeup_to chan data
      ⟨0, { bus with channels := bus.channels.set channel.toNat (some chan1) },
        none, w, []⟩

/-- `coro_bus_try_recv`: NO_CHANNEL if the lookup fails, WOULD_BLOCK if the
message FIFO is empty, else `read_and_wakeup_from` into `*data`, return 0. -/
def coro_bus_try_recv (bus : coro_bus) (channel : Int) : TryResult :=
  match get_chanel_from bus channel with
  | none => ⟨-1, bus, some CORO_BUS_ERR_NO_CHANNEL, [], []⟩
  | some chan =>
    if chan.messages.isEmpty then
      ⟨-1, bus, some CORO_BUS_ERR_WOULD_BLOCK, [], []⟩
    else
      let (d, chan1, bq, w) := read_and_wakeup_from bus.broadcast_queue chan
      ⟨0, { channels := bus.channels.set channel.toNat (some chan1),
            broadcast_queue := bq }, none, w, [d]⟩

/-- The second loop of `coro_bus_try_broadcast`: `send_and_wakeup_to` on
every occupied slot in index order.  Returns the updated slot list and the
woken handles. -/
def broadcast_push : List (Option coro_bus_channel) → Nat →
    List (Option coro_bus_channel) × List Coro
  | [], _ => ([], [])
  | none :: rest, data =>
    let (rest1, w) := broadcast_push rest data
    (none :: rest1, w)
  | some chan :: rest, data =>
    let (chan1, w1) := send_and_wakeup_to chan data
    let (rest1, w2) := broadcast_push rest data
    (some chan1 :: rest1, w1 ++ w2)

/-- `coro_bus_try_broadcast`: walk the slots once; if any occupied channel
is full, WOULD_BLOCK with no side effect; if no slot is occupied,
NO_CHANNEL; otherwise push `data` into every occupied channel and return 0. -/
def coro_bus_try_broadcast (bus : coro_bus) (data : Nat) : TryResult :=
  if bus.channels.any (fun slot =>
      match slot with
      | some chan => !have_free_space chan
      | none => false) then
    ⟨-1, bus, some CORO_BUS_ERR_WOULD_BLOCK, [], []⟩
  else if bus.channels.all (fun slot => slot.isNone) then
    ⟨-1, bus, some CORO_BUS_ERR_NO_CHANNEL, [], []⟩
  else
    let (chans, w) := broadcast_push bus.channels data
    ⟨0, { bus with channels := chans }, none, w, []⟩

/-- The loop of `coro_bus_try_send_v`:
`while (have_free_space(chan) && i < count) send_and_wakeup_to(chan, data[i++]);`.
The list argument holds `data[i..count)`; the Nat argument is `count − i`.
Returns the channel, the number of messages pushed and the woken handles. -/
def send_v_loop : coro_bus_channel → List Nat → Nat →
    coro_bus_channel × Nat × List Coro
  | chan, d :: rest, count + 1 =>
    if have_free_space chan then
      let (chan1, w1) := send_and_wakeup_to chan d
      let (chan2, n, w2) := send_v_loop chan1 rest count
      (chan2, n + 1, w1 ++ w2)
    else (chan, 0, [])
  | chan, _, _ => (chan, 0, [])

/-- `coro_bus_try_send_v`: NO_CHANNEL if the lookup fails; push messages
from the front of `data` while the channel has space and fewer than `count`
were pushed; WOULD_BLOCK if zero were pushed, else return the count pushed.
The caller passes an array of at least `count` elements, modelled as the
list `data`. -/
def coro_bus_try_send_v (bus : coro_bus) (channel : Int) (data : List Nat)
    (count : Nat) : TryResult :=
  match get_chanel_from bus channel with
  | none => ⟨-1, bus, some CORO_BUS_ERR_NO_CHANNEL, [], []⟩
  | some chan =>
    let (chan1, i, w) := send_v_loop chan data count
    if i = 0 then
      ⟨-1, bus, some CORO_BUS_ERR_WOULD_BLOCK, [], []⟩
    else
      ⟨Int.ofNat i,
        { bus with channels := bus.channels.set channel.toNat (some chan1) },
        none, w, []⟩

/-- The loop of `coro_bus_try_recv_v`:
`while (!chan->messages.empty() && i < capacity) read_and_wakeup_from(bus, chan, &data[i++]);`.
Returns the broadcast queue, the channel, the values read in order, and the
woken handles. -/
def recv_v_loop : List Coro → coro_bus_channel → Nat →
    List Coro × coro_bus_channel × List Nat × List Coro
  | bq, chan, 0 => (bq, chan, [], [])
  | bq, chan, capacity + 1 =>
    if chan.messages.isEmpty then (bq, chan, [], [])
    else
      let (d, chan1, bq1, w1) := read_and_wakeup_from bq chan
      let (bq2, chan2, ds, w2) := recv_v_loop bq1 chan1 capacity
      (bq2, chan2, d :: ds, w1 ++ w2)

/-- `coro_bus_try_recv_v`: NO_CHANNEL if the lookup fails; pop messages into
`data[0..]` while the channel has messages and fewer than `capacity` were
read; WOULD_BLOCK if zero were read, else return the count read. -/
def coro_bus_try_recv_v (bus : coro_bus) (channel : Int) (capacity : Nat) :
    TryResult :=
  match get_chanel_from bus channel with
  | none => ⟨-1, bus, some CORO_BUS_ERR_NO_CHANNEL, [], []⟩
  | some chan =>
    let (bq, chan1, ds, w) := recv_v_loop bus.broadcast_queue chan capacity
    if ds.length = 0 then
      ⟨-1, bus, some CORO_BUS_ERR_WOULD_BLOCK, [], []⟩
    else
      ⟨Int.ofNat ds.length,
        { channels := bus.channels.set channel.toNat (some chan1),
          broadcast_queue := bq },
        none, w, ds⟩

/-- One public try-form / lifecycle operation, for stating state-invariant
preservation over arbitrary call sequences. -/
inductive BusOp where
  | trySend (channel : Int) (data : Nat)
  | tryRecv (channel : Int)
  | tryBroadcast (data : Nat)
  | trySendV (channel : Int) (data : List Nat) (count : Nat)
  | tryRecvV (channel : Int) (capacity : Nat)
  | channelOpen (size_limit : Nat)
  | channelClose (channel : Int)
deriving Repr, DecidableEq

/-- The bus state after one public operation (return value discarded). -/
def applyOp (bus : coro_bus) : BusOp → coro_bus
  | .trySend channel data => (coro_bus_try_send bus channel data).bus
  | .tryRecv channel => (coro_bus_try_recv bus channel).bus
  | .tryBroadcast data => (coro_bus_try_broadcast bus data).bus
  | .trySendV channel data count => (coro_bus_try_send_v bus channel data count).bus
  | .tryRecvV channel capacity => (coro_bus_try_recv_v bus channel capacity).bus
  | .channelOpen size_limit => (coro_bus_channel_open bus size_limit).2
  | .channelClose channel => (coro_bus_channel_close bus channel).1

/-- Channel state invariant: the message FIFO never exceeds the capacity. -/
def channel_wf (chan : coro_bus_channel) : Prop :=
  chan.messages.length ≤ chan.size_limit

instance (chan : coro_bus_channel) : Decidable (channel_wf chan) := by
  unfold channel_wf; infer_instance

/-- Bus state invariant: every occupied slot holds a well-formed channel. -/
def coro_bus_wf (bus : coro_bus) : Prop :=
  ∀ slot ∈ bus.channels, ∀ chan, slot = some chan → channel_wf chan

instance (bus : coro_bus) : Decidable (coro_bus_wf bus) := by
  unfold coro_bus_wf; infer_instance

/-! Example states used by witnesses and counterexamples. -/

/-- A channel with the given capacity and message backlog, no waiters. -/
def exChan (cap : Nat) (ms : List Nat) : coro_bus_channel :=
  { size_limit := cap, send_queue := [], recv_queue := [], messages := ms }

/-- Two open channels: slot 0 full (capacity 1), slot 1 empty queue (capacity 2). -/
def exBusA : coro_bus :=
  { channels := [some (exChan 1 [4]), some (exChan 2 [])], broadcast_queue := [] }

/-- Slots 0 and 2 empty, slot 1 occupied. -/
def exBusGap : coro_bus :=
  { channels := [none, some (exChan 1 []), none], broadcast_queue := [] }

/-! Helper lemmas about list indexing. -/

theorem list_getD_set_self {α : Type} :
    ∀ (l : List α) (n : Nat) (v d : α), n < l.length → (l.set n v).getD n d = v
  | _ :: _, 0, _, _, _ => rfl
  | _ :: l, n + 1, v, d, h => list_getD_set_self l n v d (Nat.lt_of_succ_lt_succ h)

theorem list_getD_set_ne {α : Type} :
    ∀ (l : List α) (n m : Nat) (v d : α), n ≠ m → (l.set n v).getD m d = l.getD m d
  | [], _, _, _, _, _ => rfl
  | _ :: _, 0, 0, _, _, h => absurd rfl h
  | _ :: _, 0, _ + 1, _, _, _ => rfl
  | _ :: _, _ + 1, 0, _, _, _ => rfl
  | _ :: l, n + 1, m + 1, v, d, h =>
      list_getD_set_ne l n m v d (fun e => h (by rw [e]))

/-! Helper lemmas about `get_chanel_from`. -/

theorem get_chanel_from_some {bus : coro_bus} {channel : Int} {chan : coro_bus_channel}
    (h : get_chanel_from bus channel = some chan) :
    ¬ channel < 0 ∧ channel.toNat < bus.channels.length ∧
      bus.channels.getD channel.toNat none = some chan := by
  unfold get_chanel_from at h
  by_cases h0 : channel < 0
  · simp [h0] at h
  · by_cases h1 : bus.channels.length ≤ channel.toNat
    · simp [h0, h1] at h
    · exact ⟨h0, Nat.lt_of_not_le h1, by simpa [h0, h1] using h⟩

theorem get_chanel_from_after_set {bus : coro_bus} {channel : Int} {chan : coro_bus_channel}
    (h : get_chanel_from bus channel = some chan)
    (v : Option coro_bus_channel) (bq : List Coro) :
    get_chanel_from { channels := bus.channels.set channel.toNat v,
                      broadcast_queue := bq } channel = v := by
  obtain ⟨h0, h1, _⟩ := get_chanel_from_some h
  unfold get_chanel_from
  simp only [h0, if_false, List.length_set]
  rw [if_neg (Nat.not_le_of_lt h1)]
  exact list_getD_set_self _ _ _ _ h1

/-! Helper lemmas about the enqueue/dequeue helpers. -/

theorem send_and_wakeup_to_spec (chan : coro_bus_channel) (data : Nat) :
    send_and_wakeup_to chan data =
      ({ chan with messages := chan.messages ++ [data],
                   recv_queue := chan.recv_queue.drop 1 },
       chan.recv_queue.take 1) := by
  cases h : chan.recv_queue <;>
    simp [send_and_wakeup_to, wakeup_first_and_remove_from, h]

theorem read_and_wakeup_from_spec (bq : List Coro) (chan : coro_bus_channel) :
    read_and_wakeup_from bq chan =
      (chan.messages.headD 0,
       { chan with messages := chan.messages.tail,
                   send_queue := chan.send_queue.drop 1 },
       if chan.send_queue = [] then bq.drop 1 else bq,
       if chan.send_queue = [] then bq.take 1 else chan.send_queue.take 1) := by
  cases hs : chan.send_queue
  · cases hb : bq <;>
      simp [read_and_wakeup_from, wakeup_first_and_remove_from, hs, hb]
  · simp [read_and_wakeup_from, wakeup_first_and_remove_from, hs]

theorem send_v_loop_zero (chan : coro_bus_channel) (data : List Nat) :
    send_v_loop chan data 0 = (chan, 0, []) := by
  cases data <;> rfl

/-- C4: `try_send` returns −1 setting NO_CHANNEL when the descriptor is
negative, out of range, or names an empty slot; returns −1 setting
WOULD_BLOCK, leaving the bus untouched, when the channel's queue length
equals its capacity; and otherwise (on a well-formed channel) appends the
message at the tail of the queue and returns 0. -/
theorem try_send_error_cases (bus : coro_bus) (channel : Int) (data : Nat) :
    ((channel < 0 ∨ bus.channels.length ≤ channel.toNat ∨
        bus.channels.getD channel.toNat none = none) →
      coro_bus_try_send bus channel data =
        ⟨-1, bus, some CORO_BUS_ERR_NO_CHANNEL, [], []⟩) ∧
    (∀ chan, get_chanel_from bus channel = some chan →
      chan.messages.length = chan.size_limit →
      coro_bus_try_send bus channel data =
        ⟨-1, bus, some CORO_BUS_ERR_WOULD_BLOCK, [], []⟩) ∧
    (∀ chan, get_chanel_from bus channel = some chan →
      chan.messages.length ≤ chan.size_limit →
      chan.messages.length ≠ chan.size_limit →
      (coro_bus_try_send bus channel data).ret = 0 ∧
      ∃ chan1,
        get_chanel_from (coro_bus_try_send bus channel data).bus channel
            = some chan1 ∧
        chan1.messages = chan.messages ++ [data]) := by
  refine ⟨?_, ?_, ?_⟩
  · intro h
    have hn : get_chanel_from bus channel = none := by
      unfold get_chanel_from
      by_cases h0 : channel < 0
      · simp [h0]
      · by_cases h1 : bus.channels.length ≤ channel.toNat
        · simp [h0, h1]
        · rcases h with h | h | h
          · exact absurd h h0
          · exact absurd h h1
          · rw [if_neg h0, if_neg h1]; exact h
    simp [coro_bus_try_send, hn]
  · intro chan h he
    have hf : have_free_space chan = false := by
      simp [have_free_space, he]
    simp [coro_bus_try_send, h, hf]
  · intro chan h hle hne
    have hlt : chan.messages.length < chan.size_limit :=
      Nat.lt_of_le_of_ne hle hne
    have hf : have_free_space chan = true := by
      simp [have_free_space, hlt]
    refine ⟨by simp [coro_bus_try_send, h, hf], ?_⟩
    refine ⟨(send_and_wakeup_to chan data).1, ?_, ?_⟩
    · have hb : (coro_bus_try_send bus channel data).bus =
          { channels := bus.channels.set channel.toNat
              (some (send_and_wakeup_to chan data).1),
            broadcast_queue := bus.broadcast_queue } := by
        simp [coro_bus_try_send, h, hf]
      rw [hb]
      exact get_chanel_from_after_set h _ _
    · rw [send_and_wakeup_to_spec]

/-- Witness for `try_send_error_cases`: on `exBusA`, descriptor −1 yields
NO_CHANNEL, channel 0 (full) yields WOULD_BLOCK, channel 1 accepts. -/
theorem try_send_error_cases_witness :
    (coro_bus_try_send exBusA (-1) 5 =
      ⟨-1, exBusA, some CORO_BUS_ERR_NO_CHANNEL, [], []⟩) ∧
    (coro_bus_try_send exBusA 0 5 =
      ⟨-1, exBusA, some CORO_BUS_ERR_WOULD_BLOCK, [], []⟩) ∧
    ((coro_bus_try_send exBusA 1 5).ret = 0 ∧
      ∃ chan1, get_chanel_from (coro_bus_try_send exBusA 1 5).bus 1 = some chan1 ∧
        chan1.messages = (exChan 2 []).messages ++ [5]) :=
  ⟨(try_send_error_cases exBusA (-1) 5).1 (Or.inl (by decide)),
   (try_send_error_cases exBusA 0 5).2.1 (exChan 1 [4]) (by decide) (by decide),
   (try_send_error_cases exBusA 1 5).2.2 (exChan 2 []) (by decide) (by decide)
     (by decide)⟩

/-- C7 counterexample: channel 1 of `exBusA` exists, yet `try_send_v` with
`count == 0` returns −1 and sets WOULD_BLOCK (the `i == 0` path), not 0
with no error as claimed. -/
theorem try_send_v_count_zero_cex :
    get_chanel_from exBusA 1 ≠ none ∧
    (coro_bus_try_send_v exBusA 1 [] 0).ret = -1 ∧
    (coro_bus_try_send_v exBusA 1 [] 0).err_set =
      some CORO_BUS_ERR_WOULD_BLOCK := by decide

/-- C7 amended: `try_send_v` with `count == 0` on an existing channel
pushes nothing, returns −1 and sets WOULD_BLOCK, leaving the bus unchanged. -/
theorem try_send_v_count_zero (bus : coro_bus) (channel : Int) (data : List Nat)
    (chan : coro_bus_channel) (h : get_chanel_from bus channel = some chan) :
    coro_bus_try_send_v bus channel data 0 =
      ⟨-1, bus, some CORO_BUS_ERR_WOULD_BLOCK, [], []⟩ := by
  simp [coro_bus_try_send_v, h, send_v_loop_zero]

/-- Witness for `try_send_v_count_zero` at channel 1 of `exBusA`. -/
theorem try_send_v_count_zero_witness :
    coro_bus_try_send_v exBusA 1 [7] 0 =
      ⟨-1, exBusA, some CORO_BUS_ERR_WOULD_BLOCK, [], []⟩ :=
  try_send_v_count_zero exBusA 1 [7] (exChan 2 []) (by decide)

/-- C10: `try_recv_v` with `capacity == 0` on an existing channel reads
nothing, returns −1 and sets WOULD_BLOCK, leaving the bus (hence the
channel's message queue) unchanged, whatever the queue holds. -/
theorem try_recv_v_capacity_zero (bus : coro_bus) (channel : Int)
    (chan : coro_bus_channel) (h : get_chanel_from bus channel = some chan) :
    coro_bus_try_recv_v bus channel 0 =
      ⟨-1, bus, some CORO_BUS_ERR_WOULD_BLOCK, [], []⟩ := by
  simp [coro_bus_try_recv_v, h, recv_v_loop]

/-- Witness for `try_recv_v_capacity_zero`: channel 0 of `exBusA` has a
non-empty message queue and still gets WOULD_BLOCK. -/
theorem try_recv_v_capacity_zero_witness :
    (exChan 1 [4]).messages ≠ [] ∧
    coro_bus_try_recv_v exBusA 0 0 =
      ⟨-1, exBusA, some CORO_BUS_ERR_WOULD_BLOCK, [], []⟩ :=
  ⟨by decide, try_recv_v_capacity_zero exBusA 0 (exChan 1 [4]) (by decide)⟩

/-! Lemmas about the slot-scan loop of `coro_bus_channel_open`. -/

theorem int_ofNat_ne_neg_one (n : Nat) : Int.ofNat n ≠ -1 := by
  rw [Int.ofNat_eq_natCast]; omega

theorem le_int_ofNat {d : Int} {m : Nat} (h0 : ¬ d < 0) (hle : d.toNat ≤ m) :
    d ≤ Int.ofNat m := by
  rw [Int.ofNat_eq_natCast]; omega

theorem find_slot_no_empty :
    ∀ (l : List (Option coro_bus_channel)) (i : Nat) (acc : Int),
      (∀ k, k < l.length → l.getD k none ≠ none) → find_slot l i acc = acc
  | [], _, _, _ => rfl
  | none :: rest, _, _, h => absurd rfl (h 0 (Nat.succ_pos rest.length))
  | some _ :: rest, i, acc, h =>
      find_slot_no_empty rest (i + 1) acc
        (fun k hk => h (k + 1) (Nat.succ_lt_succ hk))

theorem find_slot_last_empty :
    ∀ (l : List (Option coro_bus_channel)) (i : Nat) (acc : Int) (j : Nat),
      j < l.length → l.getD j none = none →
      (∀ k, j < k → k < l.length → l.getD k none ≠ none) →
      find_slot l i acc = Int.ofNat (i + j)
  | [], _, _, j, hj, _, _ => absurd hj (Nat.not_lt_zero j)
  | none :: rest, i, _, 0, _, _, hk => by
      have h0 : find_slot rest (i + 1) (Int.ofNat i) = Int.ofNat i :=
        find_slot_no_empty rest (i + 1) (Int.ofNat i)
          (fun k hk2 => hk (k + 1) (Nat.succ_pos k) (Nat.succ_lt_succ hk2))
      simpa [find_slot] using h0
  | some _ :: _, _, _, 0, _, he, _ => Option.noConfusion he
  | none :: rest, i, _, j + 1, hj, he, hk => by
      have ih := find_slot_last_empty rest (i + 1) (Int.ofNat i) j
        (Nat.lt_of_succ_lt_succ hj) he
        (fun k hk1 hk2 => hk (k + 1) (Nat.succ_lt_succ hk1) (Nat.succ_lt_succ hk2))
      show find_slot rest (i + 1) (Int.ofNat i) = Int.ofNat (i + (j + 1))
      rw [ih]; congr 1; omega
  | some _ :: rest, i, acc, j + 1, hj, he, hk => by
      have ih := find_slot_last_empty rest (i + 1) acc j
        (Nat.lt_of_succ_lt_succ hj) he
        (fun k hk1 hk2 => hk (k + 1) (Nat.succ_lt_succ hk1) (Nat.succ_lt_succ hk2))
      show find_slot rest (i + 1) acc = Int.ofNat (i + (j + 1))
      rw [ih]; congr 1; omega

theorem find_slot_acc_ge :
    ∀ (l : List (Option coro_bus_channel)) (i m0 : Nat), m0 < i →
      ∃ m : Nat, find_slot l i (Int.ofNat m0) = Int.ofNat m ∧ m0 ≤ m
  | [], _, m0, _ => ⟨m0, rfl, Nat.le_refl m0⟩
  | none :: rest, i, m0, h => by
      obtain ⟨m, hm, hle⟩ := find_slot_acc_ge rest (i + 1) i (Nat.lt_succ_self i)
      exact ⟨m, hm, Nat.le_trans (Nat.le_of_lt h) hle⟩
  | some _ :: rest, i, m0, h => by
      obtain ⟨m, hm, hle⟩ := find_slot_acc_ge rest (i + 1) m0 (Nat.lt_succ_of_lt h)
      exact ⟨m, hm, hle⟩

theorem find_slot_empty_ge :
    ∀ (l : List (Option coro_bus_channel)) (i : Nat) (acc : Int) (j : Nat),
      j < l.length → l.getD j none = none →
      ∃ m : Nat, find_slot l i acc = Int.ofNat m ∧ i + j ≤ m
  | [], _, _, j, hj, _ => absurd hj (Nat.not_lt_zero j)
  | none :: rest, i, _, 0, _, _ => by
      obtain ⟨m, hm, hle⟩ := find_slot_acc_ge rest (i + 1) i (Nat.lt_succ_self i)
      exact ⟨m, hm, by omega⟩
  | some _ :: _, _, _, 0, _, he => Option.noConfusion he
  | none :: rest, i, _, j + 1, hj, he => by
      obtain ⟨m, hm, hle⟩ := find_slot_empty_ge rest (i + 1) (Int.ofNat i) j
        (Nat.lt_of_succ_lt_succ hj) he
      exact ⟨m, hm, by omega⟩
  | some _ :: rest, i, acc, j + 1, hj, he => by
      obtain ⟨m, hm, hle⟩ := find_slot_empty_ge rest (i + 1) acc j
        (Nat.lt_of_succ_lt_succ hj) he
      exact ⟨m, hm, by omega⟩

/-- C1 counterexample: on `exBusGap` slot 0 is empty (the lowest empty
index), yet `channel_open` returns descriptor 2, not 0: the scan keeps the
last NULL slot seen, not the first. -/
theorem channel_open_not_lowest_cex :
    exBusGap.channels.getD 0 none = none ∧ 0 < exBusGap.channels.length ∧
    (coro_bus_channel_open exBusGap 1).1 = 2 := by decide

/-- C1 amended: when the bus has any empty slot, `channel_open` places the
new channel in the empty slot with the HIGHEST index and returns it; in
particular, after closing an open descriptor d, the next `channel_open`
returns an index ≥ d (= d when d is the highest empty index). -/
theorem channel_open_highest_empty (bus : coro_bus) (size_limit : Nat) :
    (∀ j, j < bus.channels.length → bus.channels.getD j none = none →
      (∀ k, j < k → k < bus.channels.length → bus.channels.getD k none ≠ none) →
      coro_bus_channel_open bus size_limit =
        (Int.ofNat j,
         { bus with channels := bus.channels.set j (some ⟨size_limit, [], [], []⟩) })) ∧
    (∀ d chan, get_chanel_from bus d = some chan →
      d ≤ (coro_bus_channel_open (coro_bus_channel_close bus d).1 size_limit).1) := by
  constructor
  · intro j hj he hk
    have hf : find_slot bus.channels 0 (-1) = Int.ofNat j := by
      simpa using find_slot_last_empty bus.channels 0 (-1) j hj he hk
    have hne : Int.ofNat j ≠ -1 := int_ofNat_ne_neg_one j
    simp [coro_bus_channel_open, hf, hne]
  · intro d chan h
    obtain ⟨h0, h1, _⟩ := get_chanel_from_some h
    have hc : (coro_bus_channel_close bus d).1 =
        { bus with channels := bus.channels.set d.toNat none } := by
      simp [coro_bus_channel_close, h]
    rw [hc]
    obtain ⟨m, hm, hle⟩ := find_slot_empty_ge (bus.channels.set d.toNat none) 0
      (-1) d.toNat (by rw [List.length_set]; exact h1)
      (list_getD_set_self _ _ _ _ h1)
    have hne : find_slot (bus.channels.set d.toNat none) 0 (-1) ≠ -1 := by
      rw [hm]; exact int_ofNat_ne_neg_one m
    have hret : (coro_bus_channel_open
        { bus with channels := bus.channels.set d.toNat none } size_limit).1 =
        Int.ofNat m := by
      simp [coro_bus_channel_open, hm, hne]
    rw [hret]
    exact le_int_ofNat h0 (Nat.le_trans (Nat.le_of_eq (Nat.zero_add d.toNat).symm) hle)

/-- Witness for `channel_open_highest_empty`: on `exBusGap` the highest
empty slot is 2 and is taken; closing descriptor 1 of `exBusGap` and
reopening returns a descriptor ≥ 1. -/
theorem channel_open_highest_empty_witness :
    (coro_bus_channel_open exBusGap 7 =
      (Int.ofNat 2,
       { exBusGap with channels := exBusGap.channels.set 2 (some ⟨7, [], [], []⟩) })) ∧
    (1 : Int) ≤ (coro_bus_channel_open (coro_bus_channel_close exBusGap 1).1 7).1 :=
  ⟨(channel_open_highest_empty exBusGap 7).1 2 (by decide) (by decide)
      (by
        intro k hk1 hk3
        rw [show exBusGap.channels.length = 3 from rfl] at hk3
        omega),
   (channel_open_highest_empty exBusGap 7).2 1 (exChan 1 []) (by decide)⟩

/-- One open channel with two blocked senders, one blocked receiver and a
full queue; one broadcast waiter on the bus. -/
def exBusWaiters : coro_bus :=
  { channels := [some ⟨1, [11, 12], [21], [3]⟩], broadcast_queue := [31] }

theorem channel_close_none {bus : coro_bus} {d : Int}
    (h : get_chanel_from bus d = none) :
    coro_bus_channel_close bus d = (bus, []) := by
  simp [coro_bus_channel_close, h]

/-- C8: `channel_close` is infallible and idempotent: on a negative,
out-of-range or empty-slot descriptor it changes nothing and wakes no one;
closing twice yields the same bus as closing once; and a successful close
empties the slot and wakes exactly the waiters of both queues (senders
first), draining them. -/
theorem channel_close_idempotent (bus : coro_bus) (d : Int) :
    (get_chanel_from bus d = none → coro_bus_channel_close bus d = (bus, [])) ∧
    ((coro_bus_channel_close (coro_bus_channel_close bus d).1 d).1 =
      (coro_bus_channel_close bus d).1) ∧
    (∀ chan, get_chanel_from bus d = some chan →
      get_chanel_from (coro_bus_channel_close bus d).1 d = none ∧
      (coro_bus_channel_close bus d).2 = chan.send_queue ++ chan.recv_queue) := by
  have hnone : ∀ chan, get_chanel_from bus d = some chan →
      get_chanel_from (coro_bus_channel_close bus d).1 d = none := by
    intro chan h
    have hc : (coro_bus_channel_close bus d).1 =
        { bus with channels := bus.channels.set d.toNat none } := by
      simp [coro_bus_channel_close, h]
    rw [hc]
    exact get_chanel_from_after_set h none bus.broadcast_queue
  refine ⟨?_, ?_, ?_⟩
  · intro h
    exact channel_close_none h
  · cases h : get_chanel_from bus d with
    | none =>
      rw [channel_close_none h]
      show (coro_bus_channel_close bus d).1 = bus
      rw [channel_close_none h]
    | some chan =>
      rw [channel_close_none (hnone chan h)]
  · intro chan h
    refine ⟨hnone chan h, ?_⟩
    simp [coro_bus_channel_close, h, wakeup_coro_queue]

/-- Witness for `channel_close_idempotent` on `exBusWaiters` (occupied
descriptor 0 with waiters on both queues) and stale descriptor 5. -/
theorem channel_close_idempotent_witness :
    (coro_bus_channel_close exBusWaiters 5 = (exBusWaiters, [])) ∧
    ((coro_bus_channel_close (coro_bus_channel_close exBusWaiters 0).1 0).1 =
      (coro_bus_channel_close exBusWaiters 0).1) ∧
    (get_chanel_from (coro_bus_channel_close exBusWaiters 0).1 0 = none ∧
      (coro_bus_channel_close exBusWaiters 0).2 = [11, 12] ++ [21]) :=
  ⟨(channel_close_idempotent exBusWaiters 5).1 (by decide),
   (channel_close_idempotent exBusWaiters 0).2.1,
   (channel_close_idempotent exBusWaiters 0).2.2 ⟨1, [11, 12], [21], [3]⟩
     (by decide)⟩

/-- C3: dequeuing a message (`read_and_wakeup_from`) wakes exactly the head
of the channel's send queue when one waits, and only when that queue is
empty the head of the bus's broadcast queue — at most one waiter either
way; and EVERY enqueue (`send_and_wakeup_to` on any channel and message,
the path of `try_send`, including one onto an empty queue with waiting
receivers) wakes at most the head of that channel's recv queue and never
touches the broadcast queue. -/
theorem wakeup_policy (bq : List Coro) (chan : coro_bus_channel)
    (d : Nat) (rest : List Nat) (_h : chan.messages = d :: rest) :
    ((read_and_wakeup_from bq chan).2.2.2 =
        if chan.send_queue = [] then bq.take 1 else chan.send_queue.take 1) ∧
    ((read_and_wakeup_from bq chan).2.2.2).length ≤ 1 ∧
    ((read_and_wakeup_from bq chan).2.2.1 =
        if chan.send_queue = [] then bq.drop 1 else bq) ∧
    (∀ (chan2 : coro_bus_channel) (m : Nat),
      (send_and_wakeup_to chan2 m).2 = chan2.recv_queue.take 1) ∧
    (∀ (chan2 : coro_bus_channel) (m : Nat),
      ((send_and_wakeup_to chan2 m).2).length ≤ 1) ∧
    (∀ (bus : coro_bus) (channel : Int) (m : Nat),
      (coro_bus_try_send bus channel m).bus.broadcast_queue =
        bus.broadcast_queue) := by
  refine ⟨?_, ?_, ?_, ?_, ?_, ?_⟩
  · simp [read_and_wakeup_from_spec]
  · rw [read_and_wakeup_from_spec]
    dsimp only
    split <;> simp [List.length_take]
  · simp [read_and_wakeup_from_spec]
  · intro chan2 m
    simp [send_and_wakeup_to_spec]
  · intro chan2 m
    rw [send_and_wakeup_to_spec]
    dsimp only
    simp [List.length_take]
  · intro bus channel m
    cases hg : get_chanel_from bus channel with
    | none => simp [coro_bus_try_send, hg]
    | some c =>
      by_cases hf : have_free_space c
      · simp [coro_bus_try_send, hg, hf, send_and_wakeup_to_spec]
      · simp [coro_bus_try_send, hg, hf]

/-- Witness for `wakeup_policy`: a dequeue on a channel with waiting
senders [11, 12] wakes exactly 11 and leaves the broadcast waiter 31; an
enqueue onto an empty channel with waiting receivers [41, 42] wakes
exactly 41. -/
theorem wakeup_policy_witness :
    (⟨1, [11, 12], [21], [3]⟩ : coro_bus_channel).messages = 3 :: [] ∧
    (read_and_wakeup_from [31] ⟨1, [11, 12], [21], [3]⟩).2.2.2 = [11] ∧
    (read_and_wakeup_from [31] ⟨1, [11, 12], [21], [3]⟩).2.2.1 = [31] ∧
    (send_and_wakeup_to ⟨1, [], [41, 42], []⟩ 9).2 = [41] := by
  have h := wakeup_policy [31] ⟨1, [11, 12], [21], [3]⟩ 3 [] rfl
  exact ⟨rfl, by simpa using h.1, by simpa using h.2.2.1,
    by simpa using h.2.2.2.1 ⟨1, [], [41, 42], []⟩ 9⟩

/-! Lemmas about the push loop of `try_broadcast`. -/

theorem broadcast_push_length :
    ∀ (l : List (Option coro_bus_channel)) (data : Nat),
      (broadcast_push l data).1.length = l.length
  | [], _ => rfl
  | none :: rest, data => by
      simp [broadcast_push, broadcast_push_length rest data]
  | some chan :: rest, data => by
      simp [broadcast_push, broadcast_push_length rest data]

theorem broadcast_push_getD :
    ∀ (l : List (Option coro_bus_channel)) (data : Nat) (j : Nat),
      (broadcast_push l data).1.getD j none =
        Option.map (fun chan => (send_and_wakeup_to chan data).1) (l.getD j none)
  | [], _, j => by cases j <;> rfl
  | none :: rest, data, 0 => by simp [broadcast_push]
  | some chan :: rest, data, 0 => by simp [broadcast_push]
  | none :: rest, data, j + 1 => by
      simpa [broadcast_push] using broadcast_push_getD rest data j
  | some chan :: rest, data, j + 1 => by
      simpa [broadcast_push] using broadcast_push_getD rest data j

/-- C2: `try_broadcast` is all-or-nothing: on return 0 every channel that
was open gained exactly the message `m` at its tail (waking at most its
first receiver), and on return −1 (WOULD_BLOCK: some open channel full;
NO_CHANNEL: no occupied slot) the whole bus is left unchanged. -/
theorem try_broadcast_atomic (bus : coro_bus) (m : Nat) :
    ((coro_bus_try_broadcast bus m).ret = 0 →
      ∀ d chan, get_chanel_from bus d = some chan →
        get_chanel_from (coro_bus_try_broadcast bus m).bus d =
          some { chan with messages := chan.messages ++ [m],
                           recv_queue := chan.recv_queue.drop 1 }) ∧
    ((coro_bus_try_broadcast bus m).ret = -1 →
      (coro_bus_try_broadcast bus m).bus = bus) := by
  by_cases h1 : bus.channels.any (fun slot =>
      match slot with
      | some chan => !have_free_space chan
      | none => false)
  · constructor
    · intro h0
      rw [coro_bus_try_broadcast, if_pos h1] at h0
      simp at h0
    · intro _
      rw [coro_bus_try_broadcast, if_pos h1]
  · by_cases h2 : bus.channels.all (fun slot => slot.isNone)
    · constructor
      · intro h0
        rw [coro_bus_try_broadcast, if_neg h1, if_pos h2] at h0
        simp at h0
      · intro _
        rw [coro_bus_try_broadcast, if_neg h1, if_pos h2]
    · have hb : (coro_bus_try_broadcast bus m).bus =
          { bus with channels := (broadcast_push bus.channels m).1 } := by
        rw [coro_bus_try_broadcast, if_neg h1, if_neg h2]
      have hr : (coro_bus_try_broadcast bus m).ret = 0 := by
        rw [coro_bus_try_broadcast, if_neg h1, if_neg h2]
      constructor
      · intro _ d chan hg
        obtain ⟨hd0, hd1, hd2⟩ := get_chanel_from_some hg
        rw [hb]
        unfold get_chanel_from
        simp only [hd0, if_false]
        rw [broadcast_push_length]
        rw [if_neg (Nat.not_le_of_lt hd1)]
        rw [broadcast_push_getD, hd2]
        simp [send_and_wakeup_to_spec]
      · intro h0
        rw [hr] at h0
        exact absurd h0 (by decide)

/-- Three slots, two occupied with space: a successful broadcast target. -/
def exBusB : coro_bus :=
  { channels := [some (exChan 2 [7]), none, some (exChan 1 [])],
    broadcast_queue := [] }

/-- Witness for `try_broadcast_atomic`: broadcasting 9 on `exBusB` appends
9 to channel 0's queue; on `exBusA` (channel 0 full) the bus is unchanged. -/
theorem try_broadcast_atomic_witness :
    (get_chanel_from (coro_bus_try_broadcast exBusB 9).bus 0 =
      some { exChan 2 [7] with messages := (exChan 2 [7]).messages ++ [9],
                               recv_queue := (exChan 2 [7]).recv_queue.drop 1 }) ∧
    (coro_bus_try_broadcast exBusA 9).bus = exBusA :=
  ⟨(try_broadcast_atomic exBusB 9).1 (by decide) 0 (exChan 2 [7]) (by decide),
   (try_broadcast_atomic exBusA 9).2 (by decide)⟩

/-! Preservation of the capacity invariant by every public operation. -/

theorem list_getD_mem {α : Type} :
    ∀ (l : List α) (n : Nat) (d : α), n < l.length → l.getD n d ∈ l
  | a :: l, 0, _, _ => List.mem_cons_self a l
  | a :: l, n + 1, d, h =>
      List.mem_cons_of_mem a (list_getD_mem l n d (Nat.lt_of_succ_lt_succ h))

theorem chan_wf_of_get {bus : coro_bus} {channel : Int} {chan : coro_bus_channel}
    (h : coro_bus_wf bus) (hg : get_chanel_from bus channel = some chan) :
    channel_wf chan := by
  obtain ⟨_, h1, h2⟩ := get_chanel_from_some hg
  have hm := list_getD_mem bus.channels channel.toNat none h1
  rw [h2] at hm
  exact h (some chan) hm chan rfl

theorem coro_bus_wf_set {bus : coro_bus} (h : coro_bus_wf bus)
    {v : Option coro_bus_channel} (hv : ∀ c, v = some c → channel_wf c)
    (n : Nat) (bq : List Coro) :
    coro_bus_wf { channels := bus.channels.set n v, broadcast_queue := bq } := by
  intro slot hs c hc
  rcases List.mem_or_eq_of_mem_set hs with h1 | h1
  · exact h slot h1 c hc
  · exact hv c (h1 ▸ hc)

theorem send_wf {chan : coro_bus_channel} (hf : have_free_space chan = true)
    (data : Nat) : channel_wf (send_and_wakeup_to chan data).1 := by
  have hlt : chan.messages.length < chan.size_limit := by
    simpa [have_free_space] using hf
  rw [send_and_wakeup_to_spec]
  simp only [channel_wf, List.length_append, List.length_cons, List.length_nil]
  omega

theorem read_wf {chan : coro_bus_channel} (h : channel_wf chan)
    (bq : List Coro) : channel_wf (read_and_wakeup_from bq chan).2.1 := by
  rw [read_and_wakeup_from_spec]
  simp only [channel_wf, List.length_tail]
  exact Nat.le_trans (Nat.sub_le _ _) h

theorem send_v_loop_wf :
    ∀ (chan : coro_bus_channel) (data : List Nat) (count : Nat),
      channel_wf chan → channel_wf (send_v_loop chan data count).1
  | chan, [], count, h => by cases count <;> exact h
  | chan, _ :: _, 0, h => h
  | chan, d :: rest, count + 1, h => by
      by_cases hf : have_free_space chan
      · have h1 := send_wf hf d
        have h2 := send_v_loop_wf (send_and_wakeup_to chan d).1 rest count h1
        simpa [send_v_loop, hf] using h2
      · simpa [send_v_loop, hf] using h

theorem recv_v_loop_wf :
    ∀ (bq : List Coro) (chan : coro_bus_channel) (capacity : Nat),
      channel_wf chan → channel_wf (recv_v_loop bq chan capacity).2.1
  | _, chan, 0, h => h
  | bq, chan, capacity + 1, h => by
      by_cases he : chan.messages.isEmpty
      · simpa [recv_v_loop, he] using h
      · have h1 := read_wf h bq
        have h2 := recv_v_loop_wf (read_and_wakeup_from bq chan).2.2.1
          (read_and_wakeup_from bq chan).2.1 capacity h1
        simpa [recv_v_loop, he] using h2

theorem broadcast_push_wf
    (l : List (Option coro_bus_channel)) (data : Nat)
    (hs : ∀ slot ∈ l, ∀ c, slot = some c → have_free_space c = true) :
    ∀ slot ∈ (broadcast_push l data).1, ∀ c, slot = some c → channel_wf c := by
  induction l with
  | nil => intro slot hm; cases hm
  | cons a rest ih =>
    intro slot hm c hc
    cases a with
    | none =>
      rw [show broadcast_push (none :: rest) data =
          (none :: (broadcast_push rest data).1, (broadcast_push rest data).2)
          from by simp [broadcast_push]] at hm
      rcases List.mem_cons.mp hm with h1 | h1
      · exact absurd (h1 ▸ hc).symm (by simp)
      · exact ih (fun s hs2 => hs s (List.mem_cons_of_mem _ hs2)) slot h1 c hc
    | some ch =>
      rw [show broadcast_push (some ch :: rest) data =
          (some (send_and_wakeup_to ch data).1 :: (broadcast_push rest data).1,
           (send_and_wakeup_to ch data).2 ++ (broadcast_push rest data).2)
          from by simp [broadcast_push]] at hm
      rcases List.mem_cons.mp hm with h1 | h1
      · have hf := hs (some ch) (List.mem_cons_self _ _) ch rfl
        have := send_wf hf data
        rw [h1] at hc
        exact (Option.some.inj hc) ▸ this
      · exact ih (fun s hs2 => hs s (List.mem_cons_of_mem _ hs2)) slot h1 c hc

theorem applyOp_wf (bus : coro_bus) (op : BusOp) (h : coro_bus_wf bus) :
    coro_bus_wf (applyOp bus op) := by
  cases op with
  | trySend channel data =>
    show coro_bus_wf (coro_bus_try_send bus channel data).bus
    cases hg : get_chanel_from bus channel with
    | none => simpa [coro_bus_try_send, hg] using h
    | some chan =>
      by_cases hf : have_free_space chan
      · have hb : (coro_bus_try_send bus channel data).bus =
            { channels := bus.channels.set channel.toNat
                (some (send_and_wakeup_to chan data).1),
              broadcast_queue := bus.broadcast_queue } := by
          simp [coro_bus_try_send, hg, hf]
        rw [hb]
        exact coro_bus_wf_set h
          (fun c hc => (Option.some.inj hc) ▸ send_wf hf data) _ _
      · simpa [coro_bus_try_send, hg, hf] using h
  | tryRecv channel =>
    show coro_bus_wf (coro_bus_try_recv bus channel).bus
    cases hg : get_chanel_from bus channel with
    | none => simpa [coro_bus_try_recv, hg] using h
    | some chan =>
      by_cases he : chan.messages.isEmpty
      · simpa [coro_bus_try_recv, hg, he] using h
      · have hwf := chan_wf_of_get h hg
        have hb : (coro_bus_try_recv bus channel).bus =
            { channels := bus.channels.set channel.toNat
                (some (read_and_wakeup_from bus.broadcast_queue chan).2.1),
              broadcast_queue :=
                (read_and_wakeup_from bus.broadcast_queue chan).2.2.1 } := by
          simp [coro_bus_try_recv, hg, he]
        rw [hb]
        exact coro_bus_wf_set h
          (fun c hc => (Option.some.inj hc) ▸ read_wf hwf bus.broadcast_queue) _ _
  | tryBroadcast data =>
    show coro_bus_wf (coro_bus_try_broadcast bus data).bus
    by_cases h1 : bus.channels.any (fun slot =>
        match slot with
        | some chan => !have_free_space chan
        | none => false)
    · rw [coro_bus_try_broadcast, if_pos h1]; exact h
    · by_cases h2 : bus.channels.all (fun slot => slot.isNone)
      · rw [coro_bus_try_broadcast, if_neg h1, if_pos h2]; exact h
      · rw [coro_bus_try_broadcast, if_neg h1, if_neg h2]
        have hs : ∀ slot ∈ bus.channels, ∀ c, slot = some c →
            have_free_space c = true := by
          intro slot hm c hc
          have := List.any_eq_false.mp (Bool.eq_false_iff.mpr h1) slot hm
          subst hc
          simpa using this
        exact broadcast_push_wf bus.channels data hs
  | trySendV channel data count =>
    show coro_bus_wf (coro_bus_try_send_v bus channel data count).bus
    cases hg : get_chanel_from bus channel with
    | none => simpa [coro_bus_try_send_v, hg] using h
    | some chan =>
      by_cases hi : (send_v_loop chan data count).2.1 = 0
      · simpa [coro_bus_try_send_v, hg, hi] using h
      · have hwf := chan_wf_of_get h hg
        have hb : (coro_bus_try_send_v bus channel data count).bus =
            { channels := bus.channels.set channel.toNat
                (some (send_v_loop chan data count).1),
              broadcast_queue := bus.broadcast_queue } := by
          simp [coro_bus_try_send_v, hg, hi]
        rw [hb]
        exact coro_bus_wf_set h
          (fun c hc => (Option.some.inj hc) ▸ send_v_loop_wf chan data count hwf)
          _ _
  | tryRecvV channel capacity =>
    show coro_bus_wf (coro_bus_try_recv_v bus channel capacity).bus
    cases hg : get_chanel_from bus channel with
    | none => simpa [coro_bus_try_recv_v, hg] using h
    | some chan =>
      by_cases hi : (recv_v_loop bus.broadcast_queue chan capacity).2.2.1.length = 0
      · simpa [coro_bus_try_recv_v, hg, hi] using h
      · have hwf := chan_wf_of_get h hg
        have hb : (coro_bus_try_recv_v bus channel capacity).bus =
            { channels := bus.channels.set channel.toNat
                (some (recv_v_loop bus.broadcast_queue chan capacity).2.1),
              broadcast_queue :=
                (recv_v_loop bus.broadcast_queue chan capacity).1 } := by
          simp [coro_bus_try_recv_v, hg, hi]
        rw [hb]
        exact coro_bus_wf_set h
          (fun c hc => (Option.some.inj hc) ▸
            recv_v_loop_wf bus.broadcast_queue chan capacity hwf) _ _
  | channelOpen size_limit =>
    show coro_bus_wf (coro_bus_channel_open bus size_limit).2
    by_cases hd : find_slot bus.channels 0 (-1) = -1
    · have hb : (coro_bus_channel_open bus size_limit).2 =
          { bus with channels :=
              bus.channels ++ [some ⟨size_limit, [], [], []⟩] } := by
        simp [coro_bus_channel_open, hd]
      rw [hb]
      intro slot hm c hc
      rcases List.mem_append.mp hm with h1 | h1
      · exact h slot h1 c hc
      · rcases List.mem_singleton.mp h1 with h2
        rw [h2] at hc
        exact (Option.some.inj hc) ▸ Nat.zero_le _
    · have hb : (coro_bus_channel_open bus size_limit).2 =
          { bus with
            channels := bus.channels.set (find_slot bus.channels 0 (-1)).toNat (some ⟨size_limit, [], [], []⟩) } := by
        simp [coro_bus_channel_open, hd]
      rw [hb]
      exact coro_bus_wf_set h
        (fun c hc => (Option.some.inj hc) ▸ Nat.zero_le _) _ _
  | channelClose channel =>
    show coro_bus_wf (coro_bus_channel_close bus channel).1
    cases hg : get_chanel_from bus channel with
    | none => simpa [coro_bus_channel_close, hg] using h
    | some chan =>
      have hb : (coro_bus_channel_close bus channel).1 =
          { bus with channels := bus.channels.set channel.toNat none } := by
        simp [coro_bus_channel_close, hg]
      rw [hb]
      exact coro_bus_wf_set h (fun c hc => Option.noConfusion hc) _ _

/-- C5: the capacity invariant `0 ≤ len(messages) ≤ capacity` of every open
channel is preserved by every sequence of try_send, try_recv,
try_broadcast, try_send_v, try_recv_v, channel_open and channel_close
calls: no sequence can push a queue past its channel's capacity. -/
theorem bus_wf_preserved (bus : coro_bus) (ops : List BusOp)
    (h : coro_bus_wf bus) : coro_bus_wf (ops.foldl applyOp bus) := by
  induction ops generalizing bus with
  | nil => exact h
  | cons op rest ih => exact ih (applyOp bus op) (applyOp_wf bus op h)

/-- Witness for `bus_wf_preserved`: a concrete mixed call sequence starting
from the empty bus stays well formed. -/
theorem bus_wf_preserved_witness :
    coro_bus_wf ([BusOp.channelOpen 1, BusOp.trySend 0 7, BusOp.tryBroadcast 9,
      BusOp.trySendV 0 [1, 2] 2, BusOp.tryRecv 0, BusOp.tryRecvV 0 3,
      BusOp.channelClose 0].foldl applyOp
        { channels := [], broadcast_queue := [] }) :=
  bus_wf_preserved { channels := [], broadcast_queue := [] } _ (by decide)

/-! Success-path forms of `try_send` and `try_recv`, and `try_send_v` as a
sequence of `try_send` calls. -/

theorem try_send_success {bus : coro_bus} {channel : Int} {chan : coro_bus_channel}
    (hg : get_chanel_from bus channel = some chan)
    (hf : have_free_space chan = true) (data : Nat) :
    coro_bus_try_send bus channel data =
      ⟨0, { bus with channels := bus.channels.set channel.toNat (some (send_and_wakeup_to chan data).1) },
       none, (send_and_wakeup_to chan data).2, []⟩ := by
  simp [coro_bus_try_send, hg, hf]

theorem try_recv_success {bus : coro_bus} {channel : Int} {chan : coro_bus_channel}
    (hg : get_chanel_from bus channel = some chan)
    (hne : chan.messages.isEmpty = false) :
    coro_bus_try_recv bus channel =
      ⟨0, { channels := bus.channels.set channel.toNat (some (read_and_wakeup_from bus.broadcast_queue chan).2.1),
            broadcast_queue := (read_and_wakeup_from bus.broadcast_queue chan).2.2.1 },
       none, (read_and_wakeup_from bus.broadcast_queue chan).2.2.2,
       [(read_and_wakeup_from bus.broadcast_queue chan).1]⟩ := by
  simp [coro_bus_try_recv, hg, hne]

theorem list_set_getD {α : Type} :
    ∀ (l : List α) (n : Nat) (d : α), n < l.length → l.set n (l.getD n d) = l
  | _ :: _, 0, _, _ => rfl
  | a :: l, n + 1, d, h =>
      congrArg (List.cons a) (list_set_getD l n d (Nat.lt_of_succ_lt_succ h))

/-- Successive `try_send` calls with the listed messages, in order: final
bus, whether every call returned 0, and all handles woken. -/
def iterate_try_send : coro_bus → Int → List Nat → coro_bus × Bool × List Coro
  | bus, _, [] => (bus, true, [])
  | bus, channel, d :: rest =>
    ((iterate_try_send (coro_bus_try_send bus channel d).bus channel rest).1,
     ((coro_bus_try_send bus channel d).ret == 0) &&
       (iterate_try_send (coro_bus_try_send bus channel d).bus channel rest).2.1,
     (coro_bus_try_send bus channel d).woken ++
       (iterate_try_send (coro_bus_try_send bus channel d).bus channel rest).2.2)

theorem send_v_loop_iterate :
    ∀ (data : List Nat) (count : Nat) (bus : coro_bus) (channel : Int)
      (chan : coro_bus_channel), get_chanel_from bus channel = some chan →
      (iterate_try_send bus channel (data.take (send_v_loop chan data count).2.1) =
        ({ bus with channels := bus.channels.set channel.toNat (some (send_v_loop chan data count).1) },
         true, (send_v_loop chan data count).2.2)) ∧
      (send_v_loop chan data count).2.1 =
        min count (min data.length (chan.size_limit - chan.messages.length))
  | [], count, bus, channel, chan, hg => by
      obtain ⟨_, h1, h2⟩ := get_chanel_from_some hg
      have hset : bus.channels.set channel.toNat (some chan) = bus.channels := by
        conv_lhs => rw [← h2]
        exact list_set_getD _ _ _ h1
      cases count <;> simp [send_v_loop, iterate_try_send, hset]
  | d :: rest, 0, bus, channel, chan, hg => by
      obtain ⟨_, h1, h2⟩ := get_chanel_from_some hg
      have hset : bus.channels.set channel.toNat (some chan) = bus.channels := by
        conv_lhs => rw [← h2]
        exact list_set_getD _ _ _ h1
      simp [send_v_loop, iterate_try_send, hset]
  | d :: rest, count + 1, bus, channel, chan, hg => by
      by_cases hf : have_free_space chan
      · have hlt : chan.messages.length < chan.size_limit := by
          simpa [have_free_space] using hf
        have hred : send_v_loop chan (d :: rest) (count + 1) =
            ((send_v_loop (send_and_wakeup_to chan d).1 rest count).1,
             (send_v_loop (send_and_wakeup_to chan d).1 rest count).2.1 + 1,
             (send_and_wakeup_to chan d).2 ++
               (send_v_loop (send_and_wakeup_to chan d).1 rest count).2.2) := by
          simp [send_v_loop, hf]
        have hsend := try_send_success hg hf d
        have hg1 : get_chanel_from
            { bus with channels := bus.channels.set channel.toNat (some (send_and_wakeup_to chan d).1) }
            channel = some (send_and_wakeup_to chan d).1 :=
          get_chanel_from_after_set hg _ _
        obtain ⟨ih1, ih2⟩ := send_v_loop_iterate rest count
          { bus with channels := bus.channels.set channel.toNat (some (send_and_wakeup_to chan d).1) }
          channel (send_and_wakeup_to chan d).1 hg1
        have hc1l : (send_and_wakeup_to chan d).1.size_limit = chan.size_limit := by
          rw [send_and_wakeup_to_spec]
        have hc1m : (send_and_wakeup_to chan d).1.messages.length =
            chan.messages.length + 1 := by
          rw [send_and_wakeup_to_spec]; simp
        rw [hred]
        constructor
        · dsimp only
          rw [List.take_succ_cons]
          simp only [iterate_try_send, hsend]
          rw [ih1]
          simp [List.set_set]
        · dsimp only
          rw [ih2, hc1l, hc1m]
          simp only [List.length_cons]
          omega
      · have hle : chan.size_limit ≤ chan.messages.length := by
          have := (Bool.not_eq_true _).mp hf
          simpa [have_free_space] using this
        obtain ⟨_, h1, h2⟩ := get_chanel_from_some hg
        have hset : bus.channels.set channel.toNat (some chan) = bus.channels := by
          conv_lhs => rw [← h2]
          exact list_set_getD _ _ _ h1
        have hred : send_v_loop chan (d :: rest) (count + 1) = (chan, 0, []) := by
          simp [send_v_loop, hf]
        rw [hred]
        constructor
        · simp [iterate_try_send, hset]
        · simp only [List.length_cons]
          omega

/-- One channel of capacity 3 already holding one message. -/
def exBusC : coro_bus :=
  { channels := [some (exChan 3 [100])], broadcast_queue := [] }

/-- C6: if `try_send_v(d, [a, b, c], 3)` returns k > 0 then the resulting
bus and wakeups are exactly those of k successive, each successful,
`try_send` calls with the first k of a, b, c — and k is min(count, free
space) of the channel. -/
theorem try_send_v_equiv (bus : coro_bus) (channel : Int) (a b c : Nat) (k : Int)
    (hk : (coro_bus_try_send_v bus channel [a, b, c] 3).ret = k) (hpos : 0 < k) :
    (iterate_try_send bus channel ([a, b, c].take k.toNat) =
      ((coro_bus_try_send_v bus channel [a, b, c] 3).bus, true,
       (coro_bus_try_send_v bus channel [a, b, c] 3).woken)) ∧
    (∀ chan, get_chanel_from bus channel = some chan →
      k.toNat = min 3 (chan.size_limit - chan.messages.length)) := by
  cases hg : get_chanel_from bus channel with
  | none =>
    have hr : (coro_bus_try_send_v bus channel [a, b, c] 3).ret = -1 := by
      simp [coro_bus_try_send_v, hg]
    rw [hr] at hk
    omega
  | some chan =>
    by_cases hi : (send_v_loop chan [a, b, c] 3).2.1 = 0
    · have hr : (coro_bus_try_send_v bus channel [a, b, c] 3).ret = -1 := by
        simp [coro_bus_try_send_v, hg, hi]
      rw [hr] at hk
      omega
    · have hb : coro_bus_try_send_v bus channel [a, b, c] 3 =
          ⟨Int.ofNat (send_v_loop chan [a, b, c] 3).2.1,
           { bus with channels := bus.channels.set channel.toNat (some (send_v_loop chan [a, b, c] 3).1) },
           none, (send_v_loop chan [a, b, c] 3).2.2, []⟩ := by
        simp [coro_bus_try_send_v, hg, hi]
      obtain ⟨ih1, ih2⟩ := send_v_loop_iterate [a, b, c] 3 bus channel chan hg
      have hkk : k.toNat = (send_v_loop chan [a, b, c] 3).2.1 := by
        rw [hb] at hk
        dsimp only at hk
        rw [Int.ofNat_eq_natCast] at hk
        omega
      constructor
      · rw [hb]
        dsimp only
        rw [hkk]
        exact ih1
      · intro chan2 hg2
        have hce : chan2 = chan := (Option.some.inj hg2).symm
        subst hce
        rw [hkk, ih2]
        simp only [List.length_cons, List.length_nil]
        omega

/-- Witness for `try_send_v_equiv`: on `exBusC` (capacity 3 holding one
message) the vectorised send of [1, 2, 3] returns 2 = min(3, free space)
and equals two successful `try_send` calls. -/
theorem try_send_v_equiv_witness :
    (iterate_try_send exBusC 0 ([1, 2, 3].take (2 : Int).toNat) =
      ((coro_bus_try_send_v exBusC 0 [1, 2, 3] 3).bus, true,
       (coro_bus_try_send_v exBusC 0 [1, 2, 3] 3).woken)) ∧
    (2 : Int).toNat =
      min 3 ((exChan 3 [100]).size_limit - (exChan 3 [100]).messages.length) :=
  ⟨(try_send_v_equiv exBusC 0 1 2 3 2 (by decide) (by decide)).1,
   (try_send_v_equiv exBusC 0 1 2 3 2 (by decide) (by decide)).2 (exChan 3 [100])
     (by decide)⟩

/-- A lock-step single-sender/single-receiver session: for each value one
`try_send` then one `try_recv`; collects the received values and whether
every call returned 0. -/
def ping_pong : coro_bus → Int → List Nat → List Nat × Bool
  | _, _, [] => ([], true)
  | bus, channel, v :: rest =>
    ((coro_bus_try_recv (coro_bus_try_send bus channel v).bus channel).data_out ++
       (ping_pong (coro_bus_try_recv (coro_bus_try_send bus channel v).bus channel).bus channel rest).1,
     ((coro_bus_try_send bus channel v).ret == 0) &&
       (((coro_bus_try_recv (coro_bus_try_send bus channel v).bus channel).ret == 0) &&
         (ping_pong (coro_bus_try_recv (coro_bus_try_send bus channel v).bus channel).bus channel rest).2))

/-- C9: on a capacity-1 channel with empty queue, sending v1…vn in order,
each send paired with its receive, delivers exactly v1…vn in order with
every call succeeding: FIFO with no loss, duplication or reordering. -/
theorem send_recv_roundtrip_fifo (vs : List Nat) :
    ∀ (bus : coro_bus) (channel : Int) (chan : coro_bus_channel),
      get_chanel_from bus channel = some chan →
      chan.size_limit = 1 → chan.messages = [] →
      ping_pong bus channel vs = (vs, true) := by
  induction vs with
  | nil =>
    intro bus channel chan _ _ _
    rfl
  | cons v rest ih =>
    intro bus channel chan hg h1 h0
    have hf : have_free_space chan = true := by
      simp [have_free_space, h0, h1]
    have hsend := try_send_success hg hf v
    have hg1 : get_chanel_from (coro_bus_try_send bus channel v).bus channel =
        some (send_and_wakeup_to chan v).1 := by
      rw [hsend]
      exact get_chanel_from_after_set hg _ _
    have hm1 : (send_and_wakeup_to chan v).1.messages = [v] := by
      rw [send_and_wakeup_to_spec]; simp [h0]
    have hl1 : (send_and_wakeup_to chan v).1.size_limit = 1 := by
      rw [send_and_wakeup_to_spec]; simpa using h1
    have hne : ((send_and_wakeup_to chan v).1.messages).isEmpty = false := by
      rw [hm1]; rfl
    have hrecv := try_recv_success hg1 hne
    have hm2 : (read_and_wakeup_from (coro_bus_try_send bus channel v).bus.broadcast_queue (send_and_wakeup_to chan v).1).2.1.messages = [] := by
      rw [read_and_wakeup_from_spec]
      simp [hm1]
    have hl2 : (read_and_wakeup_from (coro_bus_try_send bus channel v).bus.broadcast_queue (send_and_wakeup_to chan v).1).2.1.size_limit = 1 := by
      rw [read_and_wakeup_from_spec]
      simpa using hl1
    have hd : ∀ bq : List Coro,
        (read_and_wakeup_from bq (send_and_wakeup_to chan v).1).1 = v := by
      intro bq
      rw [read_and_wakeup_from_spec]
      simp [hm1]
    have hg2 : get_chanel_from
        (coro_bus_try_recv (coro_bus_try_send bus channel v).bus channel).bus channel =
        some (read_and_wakeup_from (coro_bus_try_send bus channel v).bus.broadcast_queue (send_and_wakeup_to chan v).1).2.1 := by
      rw [hrecv]
      exact get_chanel_from_after_set hg1 _ _
    have hih := ih (coro_bus_try_recv (coro_bus_try_send bus channel v).bus channel).bus
      channel _ hg2 hl2 hm2
    simp only [ping_pong, hih]
    rw [hrecv, hsend]
    simp [hd]

/-- Two empty capacity-1 channels. -/
def exBusD : coro_bus :=
  { channels := [some (exChan 1 []), some (exChan 1 [])], broadcast_queue := [] }

/-- Witness for `send_recv_roundtrip_fifo`: the capacity-1 ping-pong of
[7, 8] on channel 0 of `exBusD` delivers [7, 8] with all calls succeeding. -/
theorem send_recv_roundtrip_fifo_witness :
    ping_pong exBusD 0 [7, 8] = ([7, 8], true) :=
  send_recv_roundtrip_fifo [7, 8] exBusD 0 (exChan 1 []) (by decide) (by decide)
    (by decide)
